import Mathlib

/-!
Verification of bsdmon (src/main.c), a one-shot system monitor for FreeBSD
and Linux.

Modelling conventions:
* C `unsigned long long` / `unsigned long` values (64-bit on both LP64
  targets the program compiles for) are natural numbers reduced modulo
  2 ^ 64; the helpers `cadd`, `csub` and explicit `% UINT64_MOD` mark every
  place machine wraparound can occur.
* C `double` computations are modelled as exact rationals (`ℚ`).
* Kernel interfaces (the /proc text files, sysctl, sysconf, malloc,
  getifaddrs, inet_ntop) are modelled as explicit inputs/environments, so
  every collector becomes a pure function of what the kernel reports.
* Text parsed with `sscanf` is modelled on `List Char`, with the `%llu` /
  `%lu` conversion (skip whitespace, optional sign, a non-empty digit run,
  value reduced modulo 2 ^ 64) and exact literal matching spelled out.
-/

/-- Modulus of the 64-bit unsigned C integer types, written as a numeral so
that `omega` can use it directly.  Equals 2 ^ 64. -/
def UINT64_MOD : Nat := 18446744073709551616

theorem UINT64_MOD_eq : UINT64_MOD = 2 ^ 64 := by norm_num [UINT64_MOD]

theorem UINT64_MOD_pos : 0 < UINT64_MOD := by norm_num [UINT64_MOD]

/-- C 64-bit unsigned addition. -/
def cadd (a b : Nat) : Nat := (a + b) % UINT64_MOD

/-- C 64-bit unsigned subtraction `a - b` (the second operand is reduced
first, so the definition is total; every use in this file already has both
operands below `UINT64_MOD`). -/
def csub (a b : Nat) : Nat := (a + UINT64_MOD - b % UINT64_MOD) % UINT64_MOD

theorem cadd_lt (a b : Nat) : cadd a b < UINT64_MOD :=
  Nat.mod_lt _ UINT64_MOD_pos

theorem cadd_eq_add {a b : Nat} (h : a + b < UINT64_MOD) : cadd a b = a + b :=
  Nat.mod_eq_of_lt h

theorem csub_self {a : Nat} (h : a < UINT64_MOD) : csub a a = 0 := by
  unfold csub
  rw [Nat.mod_eq_of_lt h]
  have h1 : a + UINT64_MOD - a = UINT64_MOD := by omega
  rw [h1, Nat.mod_self]

theorem csub_eq_sub {a b : Nat} (hba : b ≤ a) (ha : a < UINT64_MOD) :
    csub a b = a - b := by
  unfold csub
  have hb : b < UINT64_MOD := lt_of_le_of_lt hba ha
  rw [Nat.mod_eq_of_lt hb]
  have h1 : a + UINT64_MOD - b = (a - b) + UINT64_MOD := by omega
  rw [h1, Nat.add_mod_right]
  exact Nat.mod_eq_of_lt (by omega)

/-- cpu_times_t as compiled on Linux (src/main.c lines 38-46: without the
FreeBSD-only `intr` field). -/
structure cpu_times_t where
  user : Nat
  nice : Nat
  system : Nat
  idle : Nat
deriving DecidableEq

/-- cpu_times_t as compiled on FreeBSD (src/main.c lines 38-46: with the
`intr` field). -/
structure cpu_times_bsd_t where
  user : Nat
  nice : Nat
  system : Nat
  idle : Nat
  intr : Nat
deriving DecidableEq

/-- The `active` sum of calc_cpu_usage on the Linux build
(src/main.c line 154: user + nice + system, 64-bit unsigned). -/
def cpu_active (t : cpu_times_t) : Nat := cadd (cadd t.user t.nice) t.system

/-- The `total` sum of calc_cpu_usage on the Linux build
(src/main.c line 157: active + idle). -/
def cpu_total (t : cpu_times_t) : Nat := cadd (cpu_active t) t.idle

/-- The `active` sum of calc_cpu_usage on the FreeBSD build
(src/main.c line 151: user + nice + system + intr). -/
def cpu_active_bsd (t : cpu_times_bsd_t) : Nat :=
  cadd (cadd (cadd t.user t.nice) t.system) t.intr

/-- The `total` sum of calc_cpu_usage on the FreeBSD build
(src/main.c line 157: active + idle). -/
def cpu_total_bsd (t : cpu_times_bsd_t) : Nat := cadd (cpu_active_bsd t) t.idle

/-- calc_cpu_usage (src/main.c lines 147-164) as compiled on Linux.  The
deltas are 64-bit unsigned subtractions; the final division is the C double
division, modelled exactly over ℚ. -/
def calc_cpu_usage (prev curr : cpu_times_t) : ℚ :=
  let total_delta := csub (cpu_total curr) (cpu_total prev)
  let active_delta := csub (cpu_active curr) (cpu_active prev)
  if total_delta = 0 then 0 else (active_delta : ℚ) / (total_delta : ℚ) * 100

/-- calc_cpu_usage (src/main.c lines 147-164) as compiled on FreeBSD
(interrupt time included in the active sum). -/
def calc_cpu_usage_bsd (prev curr : cpu_times_bsd_t) : ℚ :=
  let total_delta := csub (cpu_total_bsd curr) (cpu_total_bsd prev)
  let active_delta := csub (cpu_active_bsd curr) (cpu_active_bsd prev)
  if total_delta = 0 then 0 else (active_delta : ℚ) / (total_delta : ℚ) * 100

/-- Bounds for the guarded ratio that calc_cpu_usage ends with: whenever the
active delta is at most the total delta, the result lies in [0, 100]. -/
theorem ratio_bounds {da dt : Nat} (h : da ≤ dt) :
    0 ≤ (if dt = 0 then (0 : ℚ) else (da : ℚ) / (dt : ℚ) * 100)
    ∧ (if dt = 0 then (0 : ℚ) else (da : ℚ) / (dt : ℚ) * 100) ≤ 100 := by
  split_ifs with hz
  · norm_num
  · have hdt0 : (0 : ℚ) < dt := by exact_mod_cast Nat.pos_of_ne_zero hz
    have hle : (da : ℚ) ≤ dt := by exact_mod_cast h
    refine ⟨by positivity, ?_⟩
    have h1 : (da : ℚ) / (dt : ℚ) ≤ 1 := (div_le_one hdt0).mpr hle
    calc (da : ℚ) / (dt : ℚ) * 100 ≤ 1 * 100 :=
          mul_le_mul_of_nonneg_right h1 (by norm_num)
      _ = 100 := by norm_num

/-- C1 counterexample: a pair of per-field monotone (hence valid cumulative)
64-bit samples with mathematically non-decreasing total whose usage exceeds
100, because on reaching 2 ^ 64 the unsigned total wraps while the active sum
does not: every field of the first sample is 0 (so fields only increase, as
the first two conjuncts record for the user field and the totals), yet
calc_cpu_usage returns (2 ^ 64 - 1) * 100. -/
theorem C1_counterexample :
    (0 : Nat) ≤ 18446744073709551615 ∧
    (0 + 0 + 0 + 0 : Nat) ≤ 18446744073709551615 + 0 + 0 + 2 ∧
    100 < calc_cpu_usage ⟨0, 0, 0, 0⟩ ⟨18446744073709551615, 0, 0, 2⟩ := by
  refine ⟨by norm_num, by norm_num, ?_⟩
  norm_num [calc_cpu_usage, cpu_total, cpu_active, cadd, csub, UINT64_MOD]

/-- C1 (amended): for every pair of CpuTimeSample values whose fields are
valid cumulative counters (each field monotonically non-decreasing from prev
to curr) and whose mathematical total curr.user + nice + system
[+ interrupt] + idle still fits in the 64-bit counters (no wraparound),
calc_cpu_usage returns a value in [0, 100], on both platform variants. -/
theorem C1_cpu_usage_in_range :
    (∀ p c : cpu_times_t,
        p.user ≤ c.user → p.nice ≤ c.nice → p.system ≤ c.system →
        p.idle ≤ c.idle →
        c.user + c.nice + c.system + c.idle < UINT64_MOD →
        0 ≤ calc_cpu_usage p c ∧ calc_cpu_usage p c ≤ 100)
    ∧ (∀ p c : cpu_times_bsd_t,
        p.user ≤ c.user → p.nice ≤ c.nice → p.system ≤ c.system →
        p.idle ≤ c.idle → p.intr ≤ c.intr →
        c.user + c.nice + c.system + c.intr + c.idle < UINT64_MOD →
        0 ≤ calc_cpu_usage_bsd p c ∧ calc_cpu_usage_bsd p c ≤ 100) := by
  constructor
  · intro p c h1 h2 h3 h4 hfit
    have hac : cpu_active c = c.user + c.nice + c.system := by
      unfold cpu_active
      rw [cadd_eq_add (show c.user + c.nice < UINT64_MOD by omega),
        cadd_eq_add (by omega)]
    have hap : cpu_active p = p.user + p.nice + p.system := by
      unfold cpu_active
      rw [cadd_eq_add (show p.user + p.nice < UINT64_MOD by omega),
        cadd_eq_add (by omega)]
    have htc : cpu_total c = c.user + c.nice + c.system + c.idle := by
      unfold cpu_total; rw [hac, cadd_eq_add (by omega)]
    have htp : cpu_total p = p.user + p.nice + p.system + p.idle := by
      unfold cpu_total; rw [hap, cadd_eq_add (by omega)]
    have hdt : csub (cpu_total c) (cpu_total p)
        = (c.user + c.nice + c.system + c.idle)
          - (p.user + p.nice + p.system + p.idle) := by
      rw [htc, htp]; exact csub_eq_sub (by omega) (by omega)
    have hda : csub (cpu_active c) (cpu_active p)
        = (c.user + c.nice + c.system) - (p.user + p.nice + p.system) := by
      rw [hac, hap]; exact csub_eq_sub (by omega) (by omega)
    have hcalc : calc_cpu_usage p c
        = if (c.user + c.nice + c.system + c.idle)
              - (p.user + p.nice + p.system + p.idle) = 0 then (0 : ℚ)
          else (((c.user + c.nice + c.system)
                  - (p.user + p.nice + p.system) : Nat) : ℚ)
            / (((c.user + c.nice + c.system + c.idle)
                  - (p.user + p.nice + p.system + p.idle) : Nat) : ℚ) * 100 := by
      simp only [calc_cpu_usage]; rw [hdt, hda]
    rw [hcalc]
    exact ratio_bounds (by omega)
  · intro p c h1 h2 h3 h4 h5 hfit
    have hac : cpu_active_bsd c = c.user + c.nice + c.system + c.intr := by
      unfold cpu_active_bsd
      rw [cadd_eq_add (show c.user + c.nice < UINT64_MOD by omega),
        cadd_eq_add (show c.user + c.nice + c.system < UINT64_MOD by omega),
        cadd_eq_add (show c.user + c.nice + c.system + c.intr < UINT64_MOD
          by omega)]
    have hap : cpu_active_bsd p = p.user + p.nice + p.system + p.intr := by
      unfold cpu_active_bsd
      rw [cadd_eq_add (show p.user + p.nice < UINT64_MOD by omega),
        cadd_eq_add (show p.user + p.nice + p.system < UINT64_MOD by omega),
        cadd_eq_add (show p.user + p.nice + p.system + p.intr < UINT64_MOD
          by omega)]
    have htc : cpu_total_bsd c = c.user + c.nice + c.system + c.intr + c.idle := by
      unfold cpu_total_bsd; rw [hac, cadd_eq_add (by omega)]
    have htp : cpu_total_bsd p = p.user + p.nice + p.system + p.intr + p.idle := by
      unfold cpu_total_bsd; rw [hap, cadd_eq_add (by omega)]
    have hdt : csub (cpu_total_bsd c) (cpu_total_bsd p)
        = (c.user + c.nice + c.system + c.intr + c.idle)
          - (p.user + p.nice + p.system + p.intr + p.idle) := by
      rw [htc, htp]; exact csub_eq_sub (by omega) (by omega)
    have hda : csub (cpu_active_bsd c) (cpu_active_bsd p)
        = (c.user + c.nice + c.system + c.intr)
          - (p.user + p.nice + p.system + p.intr) := by
      rw [hac, hap]; exact csub_eq_sub (by omega) (by omega)
    have hcalc : calc_cpu_usage_bsd p c
        = if (c.user + c.nice + c.system + c.intr + c.idle)
              - (p.user + p.nice + p.system + p.intr + p.idle) = 0 then (0 : ℚ)
          else (((c.user + c.nice + c.system + c.intr)
                  - (p.user + p.nice + p.system + p.intr) : Nat) : ℚ)
            / (((c.user + c.nice + c.system + c.intr + c.idle)
                  - (p.user + p.nice + p.system + p.intr + p.idle) : Nat) : ℚ)
            * 100 := by
      simp only [calc_cpu_usage_bsd]; rw [hdt, hda]
    rw [hcalc]
    exact ratio_bounds (by omega)

/-- C1 witness: at the concrete monotone, non-overflowing pair
(0,0,0,0) to (1,2,3,4) the usage estimate lies in [0, 100]. -/
theorem C1_witness :
    0 ≤ calc_cpu_usage ⟨0, 0, 0, 0⟩ ⟨1, 2, 3, 4⟩
    ∧ calc_cpu_usage ⟨0, 0, 0, 0⟩ ⟨1, 2, 3, 4⟩ ≤ 100 :=
  C1_cpu_usage_in_range.1 ⟨0, 0, 0, 0⟩ ⟨1, 2, 3, 4⟩ (by norm_num) (by norm_num)
    (by norm_num) (by norm_num) (by norm_num [UINT64_MOD])

/-- C4: whenever the 64-bit total delta between two samples is zero — in
particular for a sample paired with itself — calc_cpu_usage returns exactly
0 and performs no division, on both platform variants. -/
theorem C4_zero_delta_zero_usage :
    (∀ p c : cpu_times_t,
        csub (cpu_total c) (cpu_total p) = 0 → calc_cpu_usage p c = 0)
    ∧ (∀ s : cpu_times_t, calc_cpu_usage s s = 0)
    ∧ (∀ p c : cpu_times_bsd_t,
        csub (cpu_total_bsd c) (cpu_total_bsd p) = 0 →
        calc_cpu_usage_bsd p c = 0)
    ∧ (∀ s : cpu_times_bsd_t, calc_cpu_usage_bsd s s = 0) := by
  have h1 : ∀ p c : cpu_times_t,
      csub (cpu_total c) (cpu_total p) = 0 → calc_cpu_usage p c = 0 := by
    intro p c h; simp [calc_cpu_usage, h]
  have h3 : ∀ p c : cpu_times_bsd_t,
      csub (cpu_total_bsd c) (cpu_total_bsd p) = 0 →
      calc_cpu_usage_bsd p c = 0 := by
    intro p c h; simp [calc_cpu_usage_bsd, h]
  exact ⟨h1, fun s => h1 s s (csub_self (cadd_lt _ _)),
    h3, fun s => h3 s s (csub_self (cadd_lt _ _))⟩

/-- C4 witness: a concrete pair with equal 64-bit totals (active grew by one
tick, idle shrank by one) yields usage exactly 0. -/
theorem C4_witness : calc_cpu_usage ⟨1, 0, 0, 1⟩ ⟨1, 1, 0, 0⟩ = 0 :=
  C4_zero_delta_zero_usage.1 ⟨1, 0, 0, 1⟩ ⟨1, 1, 0, 0⟩ (by decide)

/-- C5: whenever the 64-bit total delta is non-zero and the active delta
equals it (all elapsed time was active), calc_cpu_usage returns exactly 100,
on both platform variants. -/
theorem C5_all_active_full_usage :
    (∀ p c : cpu_times_t,
        csub (cpu_total c) (cpu_total p) ≠ 0 →
        csub (cpu_active c) (cpu_active p) = csub (cpu_total c) (cpu_total p) →
        calc_cpu_usage p c = 100)
    ∧ (∀ p c : cpu_times_bsd_t,
        csub (cpu_total_bsd c) (cpu_total_bsd p) ≠ 0 →
        csub (cpu_active_bsd c) (cpu_active_bsd p)
          = csub (cpu_total_bsd c) (cpu_total_bsd p) →
        calc_cpu_usage_bsd p c = 100) := by
  constructor
  · intro p c hz he
    simp only [calc_cpu_usage]
    rw [if_neg hz, he, div_self (by exact_mod_cast hz), one_mul]
  · intro p c hz he
    simp only [calc_cpu_usage_bsd]
    rw [if_neg hz, he, div_self (by exact_mod_cast hz), one_mul]

/-- C5 witness: from the zero sample to (5,0,0,0) all five elapsed ticks are
active and calc_cpu_usage returns exactly 100. -/
theorem C5_witness : calc_cpu_usage ⟨0, 0, 0, 0⟩ ⟨5, 0, 0, 0⟩ = 100 :=
  C5_all_active_full_usage.1 ⟨0, 0, 0, 0⟩ ⟨5, 0, 0, 0⟩ (by decide) (by decide)

/-- isspace in the C locale, the whitespace that scanf conversions and
whitespace directives skip. -/
def cIsSpace (c : Char) : Bool :=
  c = ' ' || c = '\t' || c = '\n' || c = '\x0b' || c = '\x0c' || c = '\r'

/-- Skip leading C whitespace, as a scanf whitespace directive or the start
of a numeric conversion does. -/
def skipWs : List Char → List Char
  | [] => []
  | c :: cs => if cIsSpace c then skipWs cs else c :: cs

/-- Accumulate a run of decimal digits into a value (scanf's digit loop). -/
def takeDigitsAux (acc : Nat) : List Char → Nat × List Char
  | [] => (acc, [])
  | c :: cs =>
    if c.isDigit then takeDigitsAux (acc * 10 + (c.toNat - 48)) cs
    else (acc, c :: cs)

/-- A non-empty decimal digit run; none is scanf's matching failure. -/
def parseDigits : List Char → Option (Nat × List Char)
  | [] => none
  | c :: cs =>
    if c.isDigit then some (takeDigitsAux (c.toNat - 48) cs) else none

/-- The optional sign accepted by the scanf unsigned conversions. -/
def signSplit (cs : List Char) : Bool × List Char :=
  match cs with
  | '-' :: rest => (true, rest)
  | '+' :: rest => (false, rest)
  | _ => (false, cs)

/-- Value of an unsigned 64-bit conversion: reduced modulo 2 ^ 64, and a
negated (two's-complement) value for a leading minus sign. -/
def ullVal (neg : Bool) (v : Nat) : Nat :=
  if neg then (UINT64_MOD - v % UINT64_MOD) % UINT64_MOD else v % UINT64_MOD

/-- The scanf `%llu` / `%lu` conversion on LP64: skip whitespace, optional
sign, then a non-empty digit run; returns the converted 64-bit value and the
unconsumed input, or none on matching failure. -/
def parseUll (cs : List Char) : Option (Nat × List Char) :=
  let s := signSplit (skipWs cs)
  (parseDigits s.2).map fun vr => (ullVal s.1 vr.1, vr.2)

/-- Exact literal matching of the non-whitespace characters of a scanf
format against the input. -/
def matchLit : List Char → List Char → Option (List Char)
  | [], cs => some cs
  | _ :: _, [] => none
  | k :: ks, c :: cs => if c = k then matchLit ks cs else none

/-- get_cpu_times on Linux (src/main.c lines 54-83), applied to the first
line of /proc/stat: `sscanf(buf, "cpu  %llu %llu %llu %llu", ...)` — the
literal `cpu`, then four unsigned conversions (the format's spaces and each
conversion's own whitespace skip coincide); fewer than four conversions is
the `ret < 4` parse failure.  Returns the stored cpu_times_t on success. -/
def get_cpu_times_linux (buf : List Char) : Option cpu_times_t :=
  match matchLit ('c' :: 'p' :: 'u' :: []) buf with
  | none => none
  | some r0 =>
    match parseUll r0 with
    | none => none
    | some (user, r1) =>
      match parseUll r1 with
      | none => none
      | some (nice, r2) =>
        match parseUll r2 with
        | none => none
        | some (sys, r3) =>
          match parseUll r3 with
          | none => none
          | some (idle, _) => some ⟨user, nice, sys, idle⟩

/-- Fuel-indexed maximal run of unsigned conversions over the input. -/
def extract_uints_from : Nat → List Char → List Nat
  | 0, _ => []
  | fuel + 1, cs =>
    match parseUll cs with
    | none => []
    | some vr => vr.1 :: extract_uints_from fuel vr.2

/-- All unsigned integers extractable from the input by repeated `%llu`
conversions (each conversion consumes at least one character, so the
input's length is enough fuel). -/
def extract_uints (cs : List Char) : List Nat :=
  extract_uints_from cs.length cs

theorem skipWs_length_le : ∀ cs : List Char, (skipWs cs).length ≤ cs.length := by
  intro cs
  induction cs with
  | nil => simp [skipWs]
  | cons c cs ih =>
    simp only [skipWs]
    split
    · exact Nat.le_succ_of_le ih
    · exact Nat.le_refl _

theorem takeDigitsAux_length_le :
    ∀ (cs : List Char) (acc : Nat),
      (takeDigitsAux acc cs).2.length ≤ cs.length := by
  intro cs
  induction cs with
  | nil => intro acc; simp [takeDigitsAux]
  | cons c cs ih =>
    intro acc
    simp only [takeDigitsAux]
    split
    · exact Nat.le_succ_of_le (ih _)
    · exact Nat.le_refl _

theorem parseDigits_length_lt {cs : List Char} {v : Nat} {r : List Char}
    (h : parseDigits cs = some (v, r)) : r.length < cs.length := by
  cases cs with
  | nil => simp [parseDigits] at h
  | cons c cs =>
    simp only [parseDigits] at h
    split at h
    · injection h with h3
      have h2 : r = (takeDigitsAux (c.toNat - 48) cs).2 := by rw [h3]
      rw [h2]
      exact Nat.lt_succ_of_le (takeDigitsAux_length_le cs _)
    · exact absurd h (by simp)

theorem signSplit_length_le (cs : List Char) :
    (signSplit cs).2.length ≤ cs.length := by
  unfold signSplit
  split
  · exact Nat.le_succ_of_le (Nat.le_refl _)
  · exact Nat.le_succ_of_le (Nat.le_refl _)
  · exact Nat.le_refl _

theorem parseUll_length_lt {cs : List Char} {v : Nat} {r : List Char}
    (h : parseUll cs = some (v, r)) : r.length < cs.length := by
  simp only [parseUll] at h
  cases hp : parseDigits (signSplit (skipWs cs)).2 with
  | none => rw [hp] at h; simp at h
  | some vr =>
    rw [hp] at h
    simp only [Option.map_some', Option.some.injEq, Prod.mk.injEq] at h
    obtain ⟨-, h2⟩ := h
    have h3 : vr.2.length < (signSplit (skipWs cs)).2.length :=
      parseDigits_length_lt (v := vr.1) (r := vr.2) (by rw [hp])
    have h4 := signSplit_length_le (skipWs cs)
    have h5 := skipWs_length_le cs
    rw [← h2]
    omega

theorem extract_uints_from_le :
    ∀ (k fuel : Nat), ∀ cs : List Char, cs.length ≤ fuel →
      extract_uints_from (fuel + k) cs = extract_uints_from fuel cs := by
  intro k fuel
  induction fuel with
  | zero =>
    intro cs h
    have hnil : cs = [] := List.length_eq_zero.mp (Nat.le_zero.mp h)
    subst hnil
    cases k with
    | zero => rfl
    | succ k2 => rfl
  | succ f ih =>
    intro cs h
    have hrw : f + 1 + k = (f + k) + 1 := by omega
    rw [hrw]
    simp only [extract_uints_from]
    cases hp : parseUll cs with
    | none => rfl
    | some vr =>
      have hlt : vr.2.length < cs.length :=
        parseUll_length_lt (v := vr.1) (r := vr.2) (by rw [hp])
      show vr.1 :: extract_uints_from (f + k) vr.2
        = vr.1 :: extract_uints_from f vr.2
      rw [ih vr.2 (by omega)]

theorem extract_uints_eq (cs : List Char) :
    extract_uints cs = match parseUll cs with
      | none => []
      | some vr => vr.1 :: extract_uints vr.2 := by
  cases cs with
  | nil => rfl
  | cons c cs2 =>
    show extract_uints_from (c :: cs2).length (c :: cs2) = _
    cases hp : parseUll (c :: cs2) with
    | none =>
      simp only [List.length_cons, extract_uints_from]
      rw [hp]
    | some vr =>
      simp only [List.length_cons, extract_uints_from]
      rw [hp]
      have hlt : vr.2.length < cs2.length + 1 := by
        have := parseUll_length_lt (v := vr.1) (r := vr.2) (by rw [hp])
        simpa using this
      have hsplit : cs2.length = vr.2.length + (cs2.length - vr.2.length) := by
        omega
      show vr.1 :: extract_uints_from cs2.length vr.2 = vr.1 :: extract_uints vr.2
      rw [hsplit,
        extract_uints_from_le (cs2.length - vr.2.length) vr.2.length vr.2
          (Nat.le_refl _)]
      rfl

theorem extract_uints_cons {cs : List Char} {v : Nat} {r : List Char}
    (h : parseUll cs = some (v, r)) : extract_uints cs = v :: extract_uints r := by
  rw [extract_uints_eq, h]

theorem extract_uints_nil {cs : List Char} (h : parseUll cs = none) :
    extract_uints cs = [] := by
  rw [extract_uints_eq, h]

/-- C6: the Linux CPU collector's parse step fails exactly when the input
does not carry the literal `cpu` prefix or fewer than four unsigned integers
can be extracted after it; with four or more extractable integers it
succeeds and stores the first four as user, nice, system, idle. -/
theorem C6_cpu_parse_error_iff (buf : List Char) :
    (get_cpu_times_linux buf = none ↔
      matchLit ('c' :: 'p' :: 'u' :: []) buf = none ∨
        ∃ r, matchLit ('c' :: 'p' :: 'u' :: []) buf = some r ∧
          (extract_uints r).length < 4)
    ∧ (∀ r, matchLit ('c' :: 'p' :: 'u' :: []) buf = some r →
        4 ≤ (extract_uints r).length →
        get_cpu_times_linux buf
          = some ⟨(extract_uints r).getD 0 0, (extract_uints r).getD 1 0,
              (extract_uints r).getD 2 0, (extract_uints r).getD 3 0⟩) := by
  cases hm : matchLit ('c' :: 'p' :: 'u' :: []) buf with
  | none =>
    refine ⟨⟨fun _ => Or.inl rfl, fun _ => by simp [get_cpu_times_linux, hm]⟩,
      fun r hr => absurd hr (by simp)⟩
  | some r0 =>
    cases hp1 : parseUll r0 with
    | none =>
      have hnone : get_cpu_times_linux buf = none := by
        simp [get_cpu_times_linux, hm, hp1]
      have hlen : (extract_uints r0).length < 4 := by
        rw [extract_uints_nil hp1]; norm_num
      refine ⟨⟨fun _ => Or.inr ⟨r0, rfl, hlen⟩, fun _ => hnone⟩, ?_⟩
      intro r hr h4
      cases hr
      omega
    | some p1 =>
      obtain ⟨v1, r1⟩ := p1
      have he1 := extract_uints_cons hp1
      cases hp2 : parseUll r1 with
      | none =>
        have hnone : get_cpu_times_linux buf = none := by
          simp [get_cpu_times_linux, hm, hp1, hp2]
        have hlen : (extract_uints r0).length < 4 := by
          rw [he1, extract_uints_nil hp2]; norm_num
        refine ⟨⟨fun _ => Or.inr ⟨r0, rfl, hlen⟩, fun _ => hnone⟩, ?_⟩
        intro r hr h4
        cases hr
        omega
      | some p2 =>
        obtain ⟨v2, r2⟩ := p2
        have he2 := extract_uints_cons hp2
        cases hp3 : parseUll r2 with
        | none =>
          have hnone : get_cpu_times_linux buf = none := by
            simp [get_cpu_times_linux, hm, hp1, hp2, hp3]
          have hlen : (extract_uints r0).length < 4 := by
            rw [he1, he2, extract_uints_nil hp3]; norm_num
          refine ⟨⟨fun _ => Or.inr ⟨r0, rfl, hlen⟩, fun _ => hnone⟩, ?_⟩
          intro r hr h4
          cases hr
          omega
        | some p3 =>
          obtain ⟨v3, r3⟩ := p3
          have he3 := extract_uints_cons hp3
          cases hp4 : parseUll r3 with
          | none =>
            have hnone : get_cpu_times_linux buf = none := by
              simp [get_cpu_times_linux, hm, hp1, hp2, hp3, hp4]
            have hlen : (extract_uints r0).length < 4 := by
              rw [he1, he2, he3, extract_uints_nil hp4]; norm_num
            refine ⟨⟨fun _ => Or.inr ⟨r0, rfl, hlen⟩, fun _ => hnone⟩, ?_⟩
            intro r hr h4
            cases hr
            omega
          | some p4 =>
            obtain ⟨v4, r4⟩ := p4
            have he4 := extract_uints_cons hp4
            have hsome : get_cpu_times_linux buf = some ⟨v1, v2, v3, v4⟩ := by
              simp [get_cpu_times_linux, hm, hp1, hp2, hp3, hp4]
            have hchain : extract_uints r0
                = v1 :: v2 :: v3 :: v4 :: extract_uints r4 := by
              rw [he1, he2, he3, he4]
            constructor
            · constructor
              · intro h; rw [hsome] at h; exact absurd h (by simp)
              · rintro (h | ⟨r, hr, hlen⟩)
                · exact absurd h (by simp)
                · cases hr
                  rw [hchain] at hlen
                  simp only [List.length_cons] at hlen
                  omega
            · intro r hr h4
              cases hr
              rw [hsome, hchain]
              simp [List.getD]

/-- C6 witness: a malformed aggregate-CPU line missing the idle field (only
three integers) fails to parse, while a well-formed line succeeds and stores
its first four counters. -/
theorem C6_witness :
    get_cpu_times_linux ("cpu  10 20 30".data) = none
    ∧ get_cpu_times_linux ("cpu  1 2 3 4".data) = some ⟨1, 2, 3, 4⟩ :=
  ⟨(C6_cpu_parse_error_iff _).1.mpr
      (Or.inr ⟨"  10 20 30".data, by decide, by decide⟩),
    (C6_cpu_parse_error_iff _).2 ("  1 2 3 4".data) (by decide) (by decide)⟩

theorem ullVal_lt (neg : Bool) (v : Nat) : ullVal neg v < UINT64_MOD := by
  unfold ullVal
  split
  · exact Nat.mod_lt _ UINT64_MOD_pos
  · exact Nat.mod_lt _ UINT64_MOD_pos

theorem parseUll_val_lt {cs : List Char} {v : Nat} {r : List Char}
    (h : parseUll cs = some (v, r)) : v < UINT64_MOD := by
  simp only [parseUll] at h
  cases hp : parseDigits (signSplit (skipWs cs)).2 with
  | none => rw [hp] at h; simp at h
  | some vr =>
    rw [hp] at h
    simp only [Option.map_some', Option.some.injEq, Prod.mk.injEq] at h
    obtain ⟨h1, -⟩ := h
    rw [← h1]
    exact ullVal_lt _ _

/-- One sscanf attempt `"Key: %lu kB"` against one /proc/meminfo line: the
literal key characters, then the `%lu` conversion (whose whitespace skip
absorbs the format's space).  Whether the trailing `" kB"` literal matches
cannot change a return value of 1, so it is irrelevant to the `== 1` test
and not modelled. -/
def scanKeyVal (key : List Char) (line : List Char) : Option Nat :=
  match matchLit key line with
  | none => none
  | some rest => (parseUll rest).map Prod.fst

theorem scanKeyVal_lt {key line : List Char} {v : Nat}
    (h : scanKeyVal key line = some v) : v < UINT64_MOD := by
  unfold scanKeyVal at h
  split at h
  · exact absurd h (by simp)
  · rename_i rest heq
    cases hp : parseUll rest with
    | none => rw [hp] at h; exact absurd h (by simp)
    | some vr =>
      rw [hp] at h
      simp only [Option.map_some', Option.some.injEq] at h
      rw [← h]
      exact parseUll_val_lt (v := vr.1) (r := vr.2) (by rw [hp])

/-- Body of the /proc/meminfo while loop (src/main.c lines 178-183): a line
is tried as MemTotal first (`continue` on success), then as MemAvailable;
an unmatched line leaves the accumulated pair unchanged. -/
def memLineStep (acc : Nat × Nat) (line : List Char) : Nat × Nat :=
  match scanKeyVal ("MemTotal:".data) line with
  | some v => (v, acc.2)
  | none =>
    match scanKeyVal ("MemAvailable:".data) line with
    | some v => (acc.1, v)
    | none => acc

/-- The whole meminfo scan: both counters start at zero and each line is fed
through memLineStep, so a key never seen stays zero and later matches
overwrite earlier ones. -/
def memScan (lines : List (List Char)) : Nat × Nat :=
  lines.foldl memLineStep (0, 0)

/-- get_memory_usage on Linux (src/main.c lines 170-195) as a function of
the lines of /proc/meminfo: fails iff the scanned MemTotal is zero,
otherwise converts kB to GB (two divisions by 1024) and computes the used
percentage; mem_used is the unsigned long subtraction MemTotal -
MemAvailable.  Result order is (used_gb, total_gb, percent_used). -/
def get_memory_usage_linux (lines : List (List Char)) : Option (ℚ × ℚ × ℚ) :=
  let ta := memScan lines
  if ta.1 = 0 then none
  else
    let mem_used := csub ta.1 ta.2
    some ((mem_used : ℚ) / 1024 / 1024, (ta.1 : ℚ) / 1024 / 1024,
      (mem_used : ℚ) / (ta.1 : ℚ) * 100)

theorem csub_zero {a : Nat} (h : a < UINT64_MOD) : csub a 0 = a := by
  unfold csub
  rw [Nat.zero_mod, Nat.sub_zero, Nat.add_mod_right]
  exact Nat.mod_eq_of_lt h

theorem memLineStep_skip {acc : Nat × Nat} {line : List Char}
    (hT : scanKeyVal ("MemTotal:".data) line = none)
    (hA : scanKeyVal ("MemAvailable:".data) line = none) :
    memLineStep acc line = acc := by
  unfold memLineStep
  rw [hT, hA]

theorem foldl_memLineStep_skip :
    ∀ (lines : List (List Char)) (acc : Nat × Nat),
      (∀ l ∈ lines, scanKeyVal ("MemTotal:".data) l = none) →
      (∀ l ∈ lines, scanKeyVal ("MemAvailable:".data) l = none) →
      List.foldl memLineStep acc lines = acc := by
  intro lines
  induction lines with
  | nil => intro acc _ _; rfl
  | cons l ls ih =>
    intro acc hT hA
    rw [List.foldl_cons, memLineStep_skip (hT l (by simp)) (hA l (by simp))]
    exact ih acc (fun x hx => hT x (by simp [hx])) (fun x hx => hA x (by simp [hx]))

/-- The /proc/meminfo fixture of the end-to-end memory scenario. -/
def meminfo_fixture : List (List Char) :=
  [("MemTotal: 24670208 kB").data, ("MemAvailable: 23488000 kB").data]

/-- C7: on the fixed fixture MemTotal=24670208 kB, MemAvailable=23488000 kB
the Linux memory collector succeeds with used_gb = 1182208/2^20 ≈ 1.13,
total_gb = 24670208/2^20 ≈ 23.52 and percent_used ≈ 4.79 (each within 0.01
of the quoted value). -/
theorem C7_memory_fixture :
    get_memory_usage_linux meminfo_fixture
      = some (1182208 / 1048576, 24670208 / 1048576, 1182208 / 24670208 * 100)
    ∧ |(1182208 / 1048576 : ℚ) - 113 / 100| ≤ 1 / 100
    ∧ |(24670208 / 1048576 : ℚ) - 2352 / 100| ≤ 1 / 100
    ∧ |(1182208 / 24670208 * 100 : ℚ) - 479 / 100| ≤ 1 / 100 := by
  refine ⟨?_, by norm_num [abs_le], by norm_num [abs_le], by norm_num [abs_le]⟩
  have hscan : memScan meminfo_fixture = (24670208, 23488000) := by decide
  have hcs : csub 24670208 23488000 = 1182208 := by decide
  simp only [get_memory_usage_linux, hscan, hcs]
  norm_num

/-- C10: a meminfo table with exactly one MemTotal line carrying a non-zero
value and no MemAvailable line makes the Linux memory collector succeed
(missing MemAvailable is treated as 0), reporting used equal to total and
exactly 100 percent used. -/
theorem C10_missing_memavailable
    (pre post : List (List Char)) (l : List Char) (v : Nat)
    (hvl : scanKeyVal ("MemTotal:".data) l = some v) (hv0 : v ≠ 0)
    (hpre : ∀ x ∈ pre, scanKeyVal ("MemTotal:".data) x = none)
    (hpost : ∀ x ∈ post, scanKeyVal ("MemTotal:".data) x = none)
    (hA : ∀ x ∈ pre ++ l :: post, scanKeyVal ("MemAvailable:".data) x = none) :
    get_memory_usage_linux (pre ++ l :: post)
      = some ((v : ℚ) / 1024 / 1024, (v : ℚ) / 1024 / 1024, 100) := by
  have hv64 : v < UINT64_MOD := scanKeyVal_lt hvl
  have hscan : memScan (pre ++ l :: post) = (v, 0) := by
    unfold memScan
    rw [List.foldl_append,
      foldl_memLineStep_skip pre (0, 0) hpre
        (fun x hx => hA x (by simp [hx])),
      List.foldl_cons]
    have hstep : memLineStep (0, 0) l = (v, 0) := by
      unfold memLineStep; rw [hvl]
    rw [hstep]
    exact foldl_memLineStep_skip post (v, 0) hpost
      (fun x hx => hA x (by simp [hx]))
  simp only [get_memory_usage_linux, hscan]
  rw [if_neg hv0, csub_zero hv64,
    div_self (show (v : ℚ) ≠ 0 by exact_mod_cast hv0), one_mul]

/-- C10 witness: the one-line table MemTotal: 4096 kB (and no MemAvailable
line) yields used = total = 4096 kB and 100 percent. -/
theorem C10_witness :
    get_memory_usage_linux [("MemTotal: 4096 kB").data]
      = some ((4096 : ℚ) / 1024 / 1024, (4096 : ℚ) / 1024 / 1024, 100) :=
  C10_missing_memavailable [] [] (("MemTotal: 4096 kB").data) 4096
    (by decide) (by decide) (by simp) (by simp) (by decide)

/-- Bytes-to-binary-gigabytes conversion (three double divisions by 1024,
src/main.c lines 223-224). -/
def qGB (n : Nat) : ℚ := (n : ℚ) / 1024 / 1024 / 1024

/-- What the FreeBSD memory collector reads: hw.physmem,
sysconf(_SC_PAGESIZE) (a C long, negative exactly on failure), and
vm.stats.vm.v_free_count. -/
structure BsdMemEnv where
  physmem : Option Nat
  pagesize : Int
  freepages : Option Nat

/-- used_mem of the FreeBSD get_memory_usage (src/main.c lines 221-222):
free_mem = free_pages * page_size in wrapping 64-bit unsigned arithmetic,
then used_mem = total_mem - free_mem clamped at zero by the ternary. -/
def used_mem_bsd (total_mem free_pages page_size : Nat) : Nat :=
  let free_mem := (free_pages * page_size) % UINT64_MOD
  if free_mem < total_mem then total_mem - free_mem else 0

/-- get_memory_usage on FreeBSD (src/main.c lines 201-227): fails when the
physmem query fails, the page-size query fails (negative sysconf result) or
the free-page query fails; otherwise reports used/total in GB and the used
percentage, in the order (used_gb, total_gb, percent_used). -/
def get_memory_usage_bsd (env : BsdMemEnv) : Option (ℚ × ℚ × ℚ) :=
  match env.physmem with
  | none => none
  | some total_mem =>
    if env.pagesize < 0 then none
    else
      match env.freepages with
      | none => none
      | some fp =>
        let used := used_mem_bsd total_mem fp env.pagesize.toNat
        some (qGB used, qGB total_mem, (used : ℚ) / (total_mem : ℚ) * 100)

theorem used_mem_bsd_le (total fp ps : Nat) :
    used_mem_bsd total fp ps ≤ total := by
  simp only [used_mem_bsd]
  split <;> omega

/-- C8 counterexample: with reported total 100 bytes, page size 2^32 and
2^32 free pages, freePages * pageSize wraps to 0 in the unsigned long
multiplication, so the collector reports 100 bytes used (100 percent),
while max(0, total - freePages * pageSize) is 0. -/
theorem C8_counterexample :
    get_memory_usage_bsd ⟨some 100, 4294967296, some 4294967296⟩
      = some (qGB 100, qGB 100, 100)
    ∧ max 0 ((100 : ℤ) - 4294967296 * 4294967296) = 0 := by
  constructor
  · have h1 : used_mem_bsd 100 4294967296 (Int.toNat 4294967296) = 100 := by
      decide
    simp only [get_memory_usage_bsd]
    norm_num [h1]
  · exact max_eq_left (by norm_num)

/-- C8 (amended): the FreeBSD used-memory computation equals
max(0, total - freePages * pageSize) whenever the product does not overflow
the 64-bit unsigned long; unconditionally the computed used memory never
exceeds the reported total, so used_gb <= total_gb on every successful
return of the collector. -/
theorem C8_bsd_memory_clamp :
    (∀ total fp ps : Nat, fp * ps < UINT64_MOD →
        (used_mem_bsd total fp ps : ℤ)
          = max 0 ((total : ℤ) - (fp : ℤ) * (ps : ℤ)))
    ∧ (∀ total fp ps : Nat, used_mem_bsd total fp ps ≤ total)
    ∧ (∀ (env : BsdMemEnv) (u t p : ℚ),
        get_memory_usage_bsd env = some (u, t, p) → u ≤ t) := by
  refine ⟨?_, fun total fp ps => used_mem_bsd_le total fp ps, ?_⟩
  · intro total fp ps hov
    simp only [used_mem_bsd, Nat.mod_eq_of_lt hov]
    split_ifs with hlt
    · have hle : (fp : ℤ) * ps ≤ total := by exact_mod_cast Nat.le_of_lt hlt
      rw [max_eq_right (by omega), Nat.cast_sub (Nat.le_of_lt hlt),
        Nat.cast_mul]
    · have hge : (total : ℤ) ≤ (fp : ℤ) * ps := by
        exact_mod_cast Nat.le_of_not_lt hlt
      rw [max_eq_left (by omega)]
      simp
  · rintro ⟨pm, ps, fp⟩ u t p h
    cases pm with
    | none => simp [get_memory_usage_bsd] at h
    | some total =>
      by_cases hps : ps < 0
      · simp [get_memory_usage_bsd, hps] at h
      · cases fp with
        | none => simp [get_memory_usage_bsd, hps] at h
        | some fpv =>
          simp only [get_memory_usage_bsd] at h
          rw [if_neg hps] at h
          simp only [Option.some.injEq, Prod.mk.injEq] at h
          obtain ⟨hu, ht, -⟩ := h
          rw [← hu, ← ht]
          unfold qGB
          gcongr
          exact_mod_cast used_mem_bsd_le total fpv ps.toNat

/-- C8 witness: total 10 bytes, 2 free pages of 3 bytes — no overflow,
used = max(0, 10 - 6) = 4. -/
theorem C8_witness :
    (used_mem_bsd 10 2 3 : ℤ) = max 0 ((10 : ℤ) - (2 : ℤ) * (3 : ℤ)) :=
  C8_bsd_memory_clamp.1 10 2 3 (by norm_num [UINT64_MOD])

/-- CPUSTATES: tick buckets per core in kern.cp_times, in the order user,
nice, sys, intr, idle (src/main.c lines 88, 95). -/
def CPUSTATES : Nat := 5

/-- sizeof(long) on the LP64 FreeBSD targets. -/
def sizeof_long : Nat := 8

/-- What the FreeBSD CPU collector obtains: the sizing sysctl's reported
byte length, whether malloc succeeds, and the tick array written by the
filling sysctl. -/
structure BsdCpuEnv where
  size_result : Option Nat
  malloc_ok : Bool
  fill_result : Option (List Nat)
deriving DecidableEq

/-- Sum of one tick bucket across all cores, accumulated in 64-bit unsigned
arithmetic as the C loop's += does (src/main.c lines 123-130). -/
def sumBucket (cp : List Nat) (num_cpus idx : Nat) : Nat :=
  (List.range num_cpus).foldl
    (fun acc i => (acc + cp.getD (i * CPUSTATES + idx) 0) % UINT64_MOD) 0

/-- get_cpu_times on FreeBSD (src/main.c lines 97-143): fails when the
sizing query, malloc, or the filling query fails; num_cpus =
len / sizeof(long) / CPUSTATES comes from the sizing query, and each bucket
is summed across cores — there is no check that num_cpus is non-zero.
Bucket order in the array is user, nice, sys, intr, idle. -/
def get_cpu_times_bsd (env : BsdCpuEnv) : Option cpu_times_bsd_t :=
  match env.size_result with
  | none => none
  | some len =>
    let num_cpus := len / sizeof_long / CPUSTATES
    if env.malloc_ok = false then none
    else
      match env.fill_result with
      | none => none
      | some cp =>
        some ⟨sumBucket cp num_cpus 0, sumBucket cp num_cpus 1,
          sumBucket cp num_cpus 2, sumBucket cp num_cpus 4,
          sumBucket cp num_cpus 3⟩

/-- C3 counterexample: both kernel queries succeed but report zero bytes
(hence zero cores), and the collector returns success with the all-zero
sample instead of failing. -/
theorem C3_counterexample :
    get_cpu_times_bsd ⟨some 0, true, some []⟩ = some ⟨0, 0, 0, 0, 0⟩ := by
  decide

/-- C3 (amended): the FreeBSD CPU collector fails exactly when the sizing
query, malloc, or the filling query fails; a successful round with zero
cores is not an error and yields the all-zero sample. -/
theorem C3_bsd_collect_error_iff (env : BsdCpuEnv) :
    (get_cpu_times_bsd env = none ↔
      env.size_result = none ∨ env.malloc_ok = false ∨ env.fill_result = none)
    ∧ (∀ len cp, env.size_result = some len → env.malloc_ok = true →
        env.fill_result = some cp → len / sizeof_long / CPUSTATES = 0 →
        get_cpu_times_bsd env = some ⟨0, 0, 0, 0, 0⟩) := by
  obtain ⟨sz, mal, fil⟩ := env
  constructor
  · cases sz with
    | none => simp [get_cpu_times_bsd]
    | some len =>
      cases mal with
      | false => simp [get_cpu_times_bsd]
      | true =>
        cases fil with
        | none => simp [get_cpu_times_bsd]
        | some cp => simp [get_cpu_times_bsd]
  · intro len cp hsz hmal hfil hzero
    simp only at hsz hmal hfil
    subst hsz; subst hmal; subst hfil
    simp [get_cpu_times_bsd, sumBucket, hzero]

/-- C3 witness: a 39-byte report (four longs, fewer than one full
five-bucket core) gives num_cpus = 0 and a successful all-zero sample. -/
theorem C3_witness :
    get_cpu_times_bsd ⟨some 39, true, some [7]⟩ = some ⟨0, 0, 0, 0, 0⟩ :=
  (C3_bsd_collect_error_iff _).2 39 [7] rfl rfl rfl (by decide)

/-- The address-family distinction the enumerator tests: an IPv4 sockaddr
carries its 32-bit address; any other family is only a tag. -/
inductive SockAddr where
  | inet (addr : Nat)
  | inet6
  | other
deriving DecidableEq

/-- One ifaddrs entry: interface name, optional address, the IFF_LOOPBACK
flag bit, and the netmask payload that is read on the IPv4 path. -/
structure Ifaddr where
  name : String
  addr : Option SockAddr
  loopback : Bool
  netmask : Nat
deriving DecidableEq

/-- inet_ntop for AF_INET: the four octets of the network-byte-order
address rendered as dotted decimal.  With an INET_ADDRSTRLEN buffer the
libc call cannot fail, so this concrete model always succeeds; the
enumerator is stated over an arbitrary ntop oracle because the C code
checks for failure anyway. -/
def inet_ntop4 (a : Nat) : Option String :=
  some (toString (a / 16777216 % 256) ++ "." ++ toString (a / 65536 % 256)
    ++ "." ++ toString (a / 256 % 256) ++ "." ++ toString (a % 256))

/-- print_network_interfaces (src/main.c lines 250-279), returning the
records it prints: entries without an address, of a non-IPv4 family, or
flagged IFF_LOOPBACK are skipped, as is any entry whose address or netmask
conversion fails (each a `continue`); the rest yield (name, ip, netmask)
in list order. -/
def print_network_interfaces (ntop : Nat → Option String) :
    List Ifaddr → List (String × String × String)
  | [] => []
  | e :: rest =>
    match e.addr with
    | none => print_network_interfaces ntop rest
    | some SockAddr.inet6 => print_network_interfaces ntop rest
    | some SockAddr.other => print_network_interfaces ntop rest
    | some (SockAddr.inet a) =>
      if e.loopback then print_network_interfaces ntop rest
      else
        match ntop a with
        | none => print_network_interfaces ntop rest
        | some ip =>
          match ntop e.netmask with
          | none => print_network_interfaces ntop rest
          | some m => (e.name, ip, m) :: print_network_interfaces ntop rest

/-- The record a single entry contributes to the output, if any. -/
def ifaddr_emit (ntop : Nat → Option String) (e : Ifaddr) :
    Option (String × String × String) :=
  match e.addr with
  | some (SockAddr.inet a) =>
    if e.loopback then none
    else
      match ntop a with
      | none => none
      | some ip =>
        match ntop e.netmask with
        | none => none
        | some m => some (e.name, ip, m)
  | _ => none

theorem print_network_interfaces_eq_filterMap (ntop : Nat → Option String) :
    ∀ l : List Ifaddr,
      print_network_interfaces ntop l = l.filterMap (ifaddr_emit ntop) := by
  intro l
  induction l with
  | nil => rfl
  | cons e rest ih =>
    simp only [print_network_interfaces, List.filterMap_cons]
    cases ha : e.addr with
    | none => simp [ifaddr_emit, ha, ih]
    | some sa =>
      cases sa with
      | inet6 => simp [ifaddr_emit, ha, ih]
      | other => simp [ifaddr_emit, ha, ih]
      | inet a =>
        by_cases hl : e.loopback = true
        · simp [ifaddr_emit, ha, hl, ih]
        · cases hip : ntop a with
          | none => simp [ifaddr_emit, ha, hl, hip, ih]
          | some ip =>
            cases hm : ntop e.netmask with
            | none => simp [ifaddr_emit, ha, hl, hip, hm, ih]
            | some m => simp [ifaddr_emit, ha, hl, hip, hm, ih]

theorem ifaddr_emit_eq_some_iff (ntop : Nat → Option String) (e : Ifaddr)
    (r : String × String × String) :
    ifaddr_emit ntop e = some r ↔
      ∃ a ip m, e.addr = some (SockAddr.inet a) ∧ e.loopback = false ∧
        ntop a = some ip ∧ ntop e.netmask = some m ∧ r = (e.name, ip, m) := by
  cases ha : e.addr with
  | none => simp [ifaddr_emit, ha]
  | some sa =>
    cases sa with
    | inet6 => simp [ifaddr_emit, ha]
    | other => simp [ifaddr_emit, ha]
    | inet a =>
      by_cases hl : e.loopback = true
      · simp [ifaddr_emit, ha, hl]
      · cases hip : ntop a with
        | none => simp [ifaddr_emit, ha, hl, hip]
        | some ip =>
          cases hm : ntop e.netmask with
          | none => simp [ifaddr_emit, ha, hl, hip, hm]
          | some m =>
            simp [ifaddr_emit, ha, hl, hip, hm, eq_comm]

/-- A loopback IPv4 entry (127.0.0.1, IFF_LOOPBACK set). -/
def lo_if : Ifaddr := ⟨"lo", some (SockAddr.inet 2130706433), true, 4278190080⟩

/-- A non-loopback IPv4 entry, 192.168.1.100 mask 255.255.255.0. -/
def eth_if : Ifaddr :=
  ⟨"eth0", some (SockAddr.inet 3232235876), false, 4294967040⟩

/-- A non-loopback IPv6 entry on the same interface. -/
def six_if : Ifaddr := ⟨"eth0", some SockAddr.inet6, false, 0⟩

/-- A non-loopback IPv4 entry whose address the failing oracle below cannot
render. -/
def bad_if : Ifaddr := ⟨"wlan0", some (SockAddr.inet 5), false, 4294967040⟩

/-- An inet_ntop oracle that fails on address 5 (a conversion failure) and
renders everything else as dotted decimal. -/
def ntop_drop5 (a : Nat) : Option String :=
  if a = 5 then none else inet_ntop4 a

/-- C9: the enumerator emits a record exactly for entries that have an
address, are IPv4, are not flagged loopback, and whose address and netmask
conversions succeed; on the synthetic loopback-IPv4 / plain-IPv4 / IPv6
list exactly the one non-loopback IPv4 record comes out, and an entry whose
conversion fails is skipped silently while the rest are still reported. -/
theorem C9_network_filter :
    (∀ (ntop : Nat → Option String) (entries : List Ifaddr)
        (r : String × String × String),
        r ∈ print_network_interfaces ntop entries ↔
          ∃ e ∈ entries, ∃ a ip m,
            e.addr = some (SockAddr.inet a) ∧ e.loopback = false ∧
            ntop a = some ip ∧ ntop e.netmask = some m ∧ r = (e.name, ip, m))
    ∧ print_network_interfaces inet_ntop4 [lo_if, eth_if, six_if]
        = [("eth0", "192.168.1.100", "255.255.255.0")]
    ∧ print_network_interfaces ntop_drop5 [bad_if, eth_if]
        = [("eth0", "192.168.1.100", "255.255.255.0")] := by
  refine ⟨?_, ?_, ?_⟩
  · intro ntop entries r
    rw [print_network_interfaces_eq_filterMap, List.mem_filterMap]
    constructor
    · rintro ⟨e, he, hemit⟩
      exact ⟨e, he, (ifaddr_emit_eq_some_iff ntop e r).mp hemit⟩
    · rintro ⟨e, he, hrest⟩
      exact ⟨e, he, (ifaddr_emit_eq_some_iff ntop e r).mpr hrest⟩
  · rfl
  · rfl

/-- C9 witness: the non-loopback IPv4 record is indeed a member of the
enumerator's output on the synthetic three-entry list. -/
theorem C9_witness :
    ("eth0", "192.168.1.100", "255.255.255.0")
      ∈ print_network_interfaces inet_ntop4 [lo_if, eth_if, six_if] :=
  (C9_network_filter.1 inet_ntop4 [lo_if, eth_if, six_if] _).mpr
    ⟨eth_if, List.mem_cons_of_mem _ (List.mem_cons_self _ _),
      3232235876, "192.168.1.100", "255.255.255.0", rfl, rfl, rfl, rfl, rfl⟩

/-- One printed line of the report, by content: the two header lines, each
section's success line carrying its numbers, each section's inline error
line, and the network header and records. -/
inductive ReportLine where
  | header1
  | header2
  | cpuUsage (pct : ℚ)
  | memUsage (used_gb total_gb pct : ℚ)
  | memError
  | diskUsage (used_gb total_gb pct : ℚ)
  | diskError
  | netHeader
  | netRecord (name ip mask : String)
deriving DecidableEq

/-- What one run of the program obtains from its collectors: the two CPU
samples (none = collector failure), the memory and disk results, and the
network interface list (none = getifaddrs failure). -/
structure MainEnv where
  cpu1 : Option cpu_times_t
  cpu2 : Option cpu_times_t
  mem : Option (ℚ × ℚ × ℚ)
  disk : Option (ℚ × ℚ × ℚ)
  net : Option (List (String × String × String))

def EXIT_SUCCESS : Nat := 0

def EXIT_FAILURE : Nat := 1

/-- The network section of the report: on getifaddrs failure nothing is
printed (src/main.c lines 253-256), otherwise the header and one line per
record. -/
def net_section :
    Option (List (String × String × String)) → List ReportLine
  | none => []
  | some rs =>
    ReportLine.netHeader :: rs.map fun r => ReportLine.netRecord r.1 r.2.1 r.2.2

/-- main (src/main.c lines 281-321) as a function of the collector results:
the exit code and the stdout report lines.  A failure of either CPU sample
aborts with EXIT_FAILURE after the two header lines; memory and disk
failures only substitute their section's inline error line. -/
def main_run (env : MainEnv) : Nat × List ReportLine :=
  let hdr := [ReportLine.header1, ReportLine.header2]
  match env.cpu1 with
  | none => (EXIT_FAILURE, hdr)
  | some prev =>
    match env.cpu2 with
    | none => (EXIT_FAILURE, hdr)
    | some curr =>
      let cpuL := ReportLine.cpuUsage (calc_cpu_usage prev curr)
      let memL := match env.mem with
        | some (u, t, p) => ReportLine.memUsage u t p
        | none => ReportLine.memError
      let diskL := match env.disk with
        | some (u, t, p) => ReportLine.diskUsage u t p
        | none => ReportLine.diskError
      (EXIT_SUCCESS, hdr ++ [cpuL, memL, diskL] ++ net_section env.net)

/-- C2 counterexample: the first CPU sample is obtained but the second
fails, and the process still exits non-zero — so a non-zero exit does not
imply that the initial CPU sample could not be obtained. -/
theorem C2_counterexample :
    (main_run ⟨some ⟨0, 0, 0, 0⟩, none, none, none, none⟩).1 ≠ 0
    ∧ (⟨some ⟨0, 0, 0, 0⟩, none, none, none, none⟩
        : MainEnv).cpu1.isSome = true := by
  exact ⟨by decide, rfl⟩

/-- C2 (amended): the process exits 0 exactly when both CPU samples are
obtained; with both CPU samples obtained, a memory or disk collection
failure leaves the exit code 0 and is reported as that section's inline
error line. -/
theorem C2_exit_code (env : MainEnv) :
    ((main_run env).1 = 0 ↔ env.cpu1.isSome ∧ env.cpu2.isSome)
    ∧ (env.cpu1.isSome → env.cpu2.isSome → env.mem = none →
        (main_run env).1 = 0 ∧ ReportLine.memError ∈ (main_run env).2)
    ∧ (env.cpu1.isSome → env.cpu2.isSome → env.disk = none →
        (main_run env).1 = 0 ∧ ReportLine.diskError ∈ (main_run env).2) := by
  obtain ⟨c1, c2, mem, disk, net⟩ := env
  cases c1 with
  | none =>
    refine ⟨by simp [main_run, EXIT_FAILURE], ?_, ?_⟩ <;>
      · intro h
        simp at h
  | some prev =>
    cases c2 with
    | none =>
      refine ⟨by simp [main_run, EXIT_FAILURE], ?_, ?_⟩ <;>
        · intro _ h
          simp at h
    | some curr =>
      refine ⟨by simp [main_run, EXIT_SUCCESS], ?_, ?_⟩
      · intro _ _ hm
        subst hm
        exact ⟨by simp [main_run, EXIT_SUCCESS], by simp [main_run]⟩
      · intro _ _ hd
        subst hd
        exact ⟨by simp [main_run, EXIT_SUCCESS], by simp [main_run]⟩

/-- C2 witness: both CPU samples obtained and the memory collector failed —
the run exits 0 and the report carries the inline memory error line. -/
theorem C2_witness :
    (main_run ⟨some ⟨0, 0, 0, 0⟩, some ⟨1, 1, 1, 1⟩, none, none, none⟩).1 = 0
    ∧ ReportLine.memError
        ∈ (main_run
            ⟨some ⟨0, 0, 0, 0⟩, some ⟨1, 1, 1, 1⟩, none, none, none⟩).2 :=
  (C2_exit_code _).2.1 rfl rfl rfl
